import Mathlib

/-!
Verification of the fix-code-makuro adaptive orchestration pipeline.

This file shallowly embeds the core of the repository:
  src/smartAgent.ts        (complexity analysis, context cache, retry loop,
                            response cleaning)
  src/codeValidator.ts     (validation engine and scoring)
  src/autonomousActions.ts (action parser, permission policy, executor)

Strings are modelled as Lean `String` / `List Char`; JavaScript string
primitives (`includes`, `split`, `trim`, `toLowerCase`, `startsWith`,
`endsWith`, `indexOf`) are re-implemented structurally below so that every
definition is executable by kernel reduction.  JavaScript numbers that only
ever hold small integers are modelled as `Nat`/`Int`; the one fractional
constant (the advisory `confidence` field) is modelled as `ℚ`.

External capabilities (the OpenRouter HTTP call, the TypeScript compiler
parser, the VS Code settings store, the file system and child processes)
are modelled as explicit oracle parameters; everything that the repository
itself computes is embedded from the source.
-/

/- ============================================================
   JavaScript string primitives, embedded structurally
   ============================================================ -/

/-- The brace characters, written via code points (123 = left brace,
125 = right brace) so they can be used in the bracket-balance validator. -/
def lbraceChar : Char := Char.ofNat 123

def rbraceChar : Char := Char.ofNat 125

/-- The apostrophe character (code point 39). -/
def aposChar : Char := Char.ofNat 39

/-- JavaScript `\s` restricted to ASCII: space, tab, newline, carriage
return, vertical tab, form feed. -/
def isJsSpace (c : Char) : Bool :=
  c = ' ' || c = '\t' || c = '\n' || c = '\r' || c = Char.ofNat 11 || c = Char.ofNat 12

/-- JavaScript `\w`: ASCII letters, digits and underscore. -/
def isWordChar (c : Char) : Bool :=
  (('a' ≤ c && c ≤ 'z') || ('A' ≤ c && c ≤ 'Z') || ('0' ≤ c && c ≤ '9') || c = '_')

/-- ASCII lower-casing of one character (the repository only ever
lower-cases ASCII keyword text). -/
def asciiLower (c : Char) : Char :=
  if 'A' ≤ c && c ≤ 'Z' then Char.ofNat (c.toNat + 32) else c

/-- `String.prototype.toLowerCase`, character-wise on the underlying list. -/
def lowerL (cs : List Char) : List Char := cs.map asciiLower

/-- `String.prototype.startsWith` on character lists (first argument is the
needle, second the haystack). -/
def jsStartsWith : List Char → List Char → Bool
  | [], _ => true
  | _ :: _, [] => false
  | a :: as, b :: bs => a == b && jsStartsWith as bs

/-- `String.prototype.includes` on character lists (haystack first). -/
def jsIncludes (hay needle : List Char) : Bool :=
  match hay with
  | [] => needle.isEmpty
  | _ :: t => jsStartsWith needle hay || jsIncludes t needle

/-- `String.prototype.includes` on `String`s. -/
def jsIncludesS (s k : String) : Bool := jsIncludes s.data k.data

/-- `String.prototype.endsWith` for a single-character suffix. -/
def jsEndsWithChar (cs : List Char) (c : Char) : Bool :=
  match cs with
  | [] => false
  | [d] => d == c
  | _ :: t => jsEndsWithChar t c

/-- `String.prototype.trim` (ASCII whitespace on both ends). -/
def jsTrim (cs : List Char) : List Char :=
  ((cs.dropWhile isJsSpace).reverse.dropWhile isJsSpace).reverse

/-- `String.prototype.split` with a single-character separator; like the
JavaScript original it returns one (possibly empty) piece more than the
number of separators. -/
def splitOnChar (sep : Char) : List Char → List (List Char)
  | [] => [[]]
  | c :: cs =>
    match splitOnChar sep cs with
    | [] => [[]]
    | h :: t => if c == sep then [] :: h :: t else (c :: h) :: t

/-- `String.prototype.indexOf` for a single character: 0-based index of the
first occurrence, `-1` when absent. -/
def jsIndexOfChar (cs : List Char) (c : Char) : Int :=
  match cs with
  | [] => -1
  | d :: t =>
    if d == c then 0
    else
      match jsIndexOfChar t c with
      | -1 => -1
      | i => i + 1

/-- Last element of a list with a default (used for `path` helpers). -/
def lastD {α : Type} (d : α) : List α → α
  | [] => d
  | [a] => a
  | _ :: b :: t => lastD d (b :: t)

/-- Node `path.basename` restricted to forward-slash paths. -/
def basenameL (p : List Char) : List Char := lastD [] (splitOnChar '/' p)

/-- Node `path.basename` on `String`s. -/
def basenameS (p : String) : String := String.mk (basenameL p.data)

/-- Node `path.extname` restricted to forward-slash paths: the substring of
the basename from its last dot, except that a sole leading dot (dotfile)
yields the empty extension. -/
def extnameL (p : List Char) : List Char :=
  let base := basenameL p
  match splitOnChar '.' base with
  | [] => []
  | [_] => []
  | parts =>
    if base.headD ' ' == '.' && (splitOnChar '.' (base.drop 1)).length == 1 then []
    else '.' :: lastD [] parts

/- ============================================================
   codeValidator.ts — data model
   ============================================================ -/

/-- `CodeError` from codeValidator.ts. -/
structure CodeError where
  line : Int
  column : Int
  message : String
  severity : String
  code : Option String := none
  suggestion : Option String := none
  deriving DecidableEq

/-- `CodeWarning` from codeValidator.ts. -/
structure CodeWarning where
  line : Int
  message : String
  type : String
  deriving DecidableEq

/-- `ValidationResult` from codeValidator.ts. -/
structure ValidationResult where
  isValid : Bool
  errors : List CodeError
  warnings : List CodeWarning
  suggestions : List String
  score : Int
  deriving DecidableEq

/-- `calculateScore` from codeValidator.ts: start at 100, subtract 10 per
error and 2 per warning, clamp to [0, 100]. -/
def calculateScore (errors : List CodeError) (warnings : List CodeWarning) : Int :=
  let score : Int := 100
  let score := score - errors.length * 10
  let score := score - warnings.length * 2
  max 0 (min 100 score)

/- ============================================================
   codeValidator.ts — the three validators
   ============================================================ -/

/-- `performSemanticChecks` from codeValidator.ts: line-by-line quality
warnings (console.log, TODO/FIXME, debugger) for TypeScript/JavaScript. -/
def performSemanticChecks (code : String) : List CodeWarning :=
  let lines := splitOnChar '\n' code.data
  (lines.enum).foldl
    (fun warnings entry =>
      let index := entry.1
      let line := entry.2
      let warnings :=
        if jsIncludes line "console.log".data && !(jsStartsWith "//".data (jsTrim line)) then
          warnings ++ [{ line := (index : Int) + 1,
                         message := "console.log found - consider removing for production",
                         type := "code-quality" }]
        else warnings
      let warnings :=
        if jsIncludes line "TODO".data || jsIncludes line "FIXME".data then
          warnings ++ [{ line := (index : Int) + 1,
                         message := "TODO/FIXME comment found",
                         type := "todo" }]
        else warnings
      if jsIncludes line "debugger".data && !(jsStartsWith "//".data (jsTrim line)) then
        warnings ++ [{ line := (index : Int) + 1,
                       message := "debugger statement found",
                       type := "code-quality" }]
      else warnings)
    []

/-- `generateSuggestions` from codeValidator.ts. -/
def generateSuggestions (code : String) : List String :=
  let s : List String := []
  let s := if jsIncludesS code ".then(" && jsIncludesS code ".catch(" then
    s ++ ["Consider using async/await instead of .then()/.catch()"] else s
  let s := if jsIncludesS code "var " then
    s ++ ["Consider using \x27const\x27 or \x27let\x27 instead of \x27var\x27"] else s
  if jsIncludesS code "await " && !(jsIncludesS code "try") then
    s ++ ["Consider adding try/catch for async operations"] else s

/-- One step of the bracket counter of `performBasicValidation`: braces,
square brackets and parentheses are counted up on an opener and down on a
closer. -/
def bracketStep (counts : Int × Int × Int) (c : Char) : Int × Int × Int :=
  if c == lbraceChar then (counts.1 + 1, counts.2.1, counts.2.2)
  else if c == rbraceChar then (counts.1 - 1, counts.2.1, counts.2.2)
  else if c == '[' then (counts.1, counts.2.1 + 1, counts.2.2)
  else if c == ']' then (counts.1, counts.2.1 - 1, counts.2.2)
  else if c == '(' then (counts.1, counts.2.1, counts.2.2 + 1)
  else if c == ')' then (counts.1, counts.2.1, counts.2.2 - 1)
  else counts

/-- `performBasicValidation` from codeValidator.ts: whole-text bracket
balance errors plus long-line and trailing-whitespace warnings. -/
def performBasicValidation (code : String) (_fileName : String) : ValidationResult :=
  let lines := splitOnChar '\n' code.data
  let warnings := (lines.enum).foldl
    (fun warnings entry =>
      let index := entry.1
      let line := entry.2
      let warnings :=
        if line.length > 200 then
          warnings ++ [{ line := (index : Int) + 1,
                         message := "Line is very long (>200 characters)",
                         type := "code-quality" }]
        else warnings
      if jsEndsWithChar line ' ' then
        warnings ++ [{ line := (index : Int) + 1,
                       message := "Trailing whitespace",
                       type := "formatting" }]
      else warnings)
    ([] : List CodeWarning)
  let counts := code.data.foldl bracketStep ((0 : Int), (0 : Int), (0 : Int))
  let errors : List CodeError :=
    (if counts.1 ≠ 0 then
      [{ line := 0, column := 0, message := "Unmatched braces", severity := "error",
         suggestion := some "Check for missing closing \x7d" }] else []) ++
    (if counts.2.1 ≠ 0 then
      [{ line := 0, column := 0, message := "Unmatched brackets", severity := "error",
         suggestion := some "Check for missing closing ]" }] else []) ++
    (if counts.2.2 ≠ 0 then
      [{ line := 0, column := 0, message := "Unmatched parentheses", severity := "error",
         suggestion := some "Check for missing closing )" }] else [])
  { isValid := errors.length == 0
    errors := errors
    warnings := warnings
    suggestions := []
    score := calculateScore errors warnings }

/-- `validateTypeScript` from codeValidator.ts.  The TypeScript compiler
parser (`ts.createSourceFile` plus the mapping of its `parseDiagnostics`
to `CodeError`s, lines 50-88) is an external library capability, modelled
by the oracle argument `tsParse`: `none` models the `catch` branch
(parser threw, fall back to basic validation), `some diags` models the
mapped syntax diagnostics. -/
def validateTypeScript (tsParse : Option (List CodeError)) (code : String)
    (fileName : String) : ValidationResult :=
  match tsParse with
  | none => performBasicValidation code fileName
  | some diags =>
    let errors := diags
    let warnings := performSemanticChecks code
    let suggestions := if errors.length == 0 then generateSuggestions code else []
    { isValid := errors.length == 0
      errors := errors
      warnings := warnings
      suggestions := suggestions
      score := calculateScore errors warnings }

/-- The Python block-introducer keywords of `validatePython`s colon check. -/
def pyBlockKeywords : List String :=
  ["if", "elif", "else", "for", "while", "def", "class", "try", "except", "finally", "with"]

/-- The regex `^(if|elif|...|with)\s` of `validatePython`, as a test:
the trimmed line starts with a keyword followed by one whitespace char. -/
def startsWithBlockKeyword (trimmed : List Char) : Bool :=
  pyBlockKeywords.any (fun k =>
    jsStartsWith k.data trimmed &&
      (match (trimmed.drop k.length).head? with
       | some c => isJsSpace c
       | none => false))

/-- `validatePython` from codeValidator.ts: heuristic line checks for
assignment-in-conditional, missing colons and unbalanced parentheses. -/
def validatePython (code : String) (_fileName : String) : ValidationResult :=
  let lines := splitOnChar '\n' code.data
  let acc := (lines.enum).foldl
    (fun (acc : List CodeError × List CodeWarning) entry =>
      let lineNumber := (entry.1 : Int) + 1
      let line := entry.2
      let trimmed := jsTrim line
      if trimmed.isEmpty || jsStartsWith "#".data trimmed then acc
      else
        let errors := acc.1
        let errors :=
          if jsIncludes trimmed "=".data && !(jsIncludes trimmed "==".data) then
            let beforeEquals := jsTrim (splitOnChar '=' trimmed).headI
            if jsStartsWith "if ".data beforeEquals ||
               jsStartsWith "while ".data beforeEquals ||
               jsStartsWith "elif ".data beforeEquals then
              errors ++ [{ line := lineNumber, column := jsIndexOfChar line '=' + 1,
                           message := "Use \x27==\x27 for comparison, not \x27=\x27",
                           severity := "error",
                           suggestion := some "Replace \x27=\x27 with \x27==\x27" }]
            else errors
          else errors
        let errors :=
          if startsWithBlockKeyword trimmed && !(jsEndsWithChar trimmed ':') then
            errors ++ [{ line := lineNumber, column := (line.length : Int),
                         message := "Missing colon \x27:\x27 at end of statement",
                         severity := "error",
                         suggestion := some "Add \x27:\x27 at the end" }]
          else errors
        let warnings := acc.2
        let openParens := (line.filter (· == '(')).length
        let closeParens := (line.filter (· == ')')).length
        let warnings :=
          if openParens ≠ closeParens then
            warnings ++ [{ line := lineNumber, message := "Unmatched parentheses",
                           type := "syntax" }]
          else warnings
        (errors, warnings))
    ([], [])
  { isValid := acc.1.length == 0
    errors := acc.1
    warnings := acc.2
    suggestions := []
    score := calculateScore acc.1 acc.2 }

/-- `validateCode` from codeValidator.ts: dispatch on the lower-cased file
extension (`tsParse` is the TypeScript-parser oracle, see
`validateTypeScript`). -/
def validateCode (tsParse : Option (List CodeError)) (code : String)
    (fileName : String) : ValidationResult :=
  let ext := String.mk (lowerL (extnameL fileName.data))
  if [".ts", ".tsx", ".js", ".jsx", ".mjs", ".cjs"].contains ext then
    validateTypeScript tsParse code fileName
  else if ext == ".py" then
    validatePython code fileName
  else
    performBasicValidation code fileName

/-- `getErrorSummary` from codeValidator.ts. -/
def getErrorSummary (result : ValidationResult) : String :=
  if result.isValid then "No errors found"
  else
    Nat.repr result.errors.length ++ " error(s), " ++
      Nat.repr result.warnings.length ++ " warning(s)"

/- ============================================================
   smartAgent.ts — task complexity analyzer
   ============================================================ -/

/-- `TaskComplexity` from smartAgent.ts. -/
inductive TaskComplexity | simple | medium | complex
  deriving DecidableEq

/-- The agent mode from smartAgent.ts. -/
inductive AgentMode | instant | smart | deep
  deriving DecidableEq

/-- `TaskAnalysis` from smartAgent.ts (`confidence` is an advisory constant,
modelled as a rational). -/
structure TaskAnalysis where
  complexity : TaskComplexity
  mode : AgentMode
  needsContext : Bool
  needsAnalysis : Bool
  confidence : ℚ
  deriving DecidableEq

/-- `simpleKeywords` from `analyzeTaskComplexity`. -/
def simpleKeywords : List String :=
  ["fix typo", "add comment", "rename variable", "format", "prettier",
   "indent", "remove console", "add semicolon", "fix syntax"]

/-- `mediumKeywords` from `analyzeTaskComplexity`. -/
def mediumKeywords : List String :=
  ["refactor", "optimize", "improve", "add error handling", "add types",
   "convert to", "update", "modify"]

/-- `complexKeywords` from `analyzeTaskComplexity`. -/
def complexKeywords : List String :=
  ["implement", "create", "build", "design", "architect", "restructure",
   "migrate", "rewrite"]

/-- `analyzeTaskComplexity` from smartAgent.ts: lower-case the prompt,
count the selected lines, then decide simple / complex / medium, with the
simple check evaluated first. -/
def analyzeTaskComplexity (userPrompt selectedCode : String) : TaskAnalysis :=
  let prompt := lowerL userPrompt.data
  let codeLines := (splitOnChar '\n' selectedCode.data).length
  if simpleKeywords.any (fun k => jsIncludes prompt k.data) || codeLines < 10 then
    { complexity := .simple, mode := .instant, needsContext := false,
      needsAnalysis := false, confidence := 9 / 10 }
  else if complexKeywords.any (fun k => jsIncludes prompt k.data) ||
      codeLines > 100 || prompt.length > 100 then
    { complexity := .complex, mode := .deep, needsContext := true,
      needsAnalysis := true, confidence := 85 / 100 }
  else
    { complexity := .medium, mode := .smart, needsContext := true,
      needsAnalysis := false, confidence := 8 / 10 }

/- ============================================================
   smartAgent.ts — context caching system
   ============================================================ -/

/-- `ProjectCache` from smartAgent.ts; the timestamp is a millisecond clock
value (`Date.now()`), modelled as `Int`. -/
structure ProjectCache where
  projectStructure : String
  commonPatterns : String
  dependencies : String
  timestamp : Int
  deriving DecidableEq

/-- `CACHE_DURATION` from smartAgent.ts: 5 minutes in milliseconds. -/
def CACHE_DURATION : Int := 5 * 60 * 1000

/-- The global `projectCaches` map, modelled as an association list keyed
by workspace path. -/
abbrev CacheState : Type := List (String × ProjectCache)

/-- `projectCaches.set`: replace the entry for a key, or append it. -/
def cacheSet (m : CacheState) (k : String) (v : ProjectCache) : CacheState :=
  if (List.any m (fun p => p.1 == k)) then
    List.map (fun p => if p.1 == k then (k, v) else p) m
  else m ++ [(k, v)]

/-- The sections a fresh cache build produces (`buildProjectStructure`,
`detectCommonPatterns`, `getDependencies` are file-system reads, modelled
as one oracle value; `none` models the `catch` branch of
`getProjectCache`). -/
structure CacheBuild where
  projectStructure : String
  commonPatterns : String
  dependencies : String
  deriving DecidableEq

/-- `getProjectCache` from smartAgent.ts: return the stored entry as a hit
when it exists and is younger than `CACHE_DURATION`, otherwise rebuild
(storing the fresh snapshot with the current timestamp) or absorb a build
failure into `none`.  Returns the snapshot handed to the caller and the
updated global map. -/
def getProjectCache (caches : CacheState) (now : Int) (build : Option CacheBuild)
    (workspacePath : String) : Option ProjectCache × CacheState :=
  match List.lookup workspacePath caches with
  | some cached =>
    if now - cached.timestamp < CACHE_DURATION then (some cached, caches)
    else
      match build with
      | some b =>
        let cache : ProjectCache :=
          { projectStructure := b.projectStructure, commonPatterns := b.commonPatterns,
            dependencies := b.dependencies, timestamp := now }
        (some cache, cacheSet caches workspacePath cache)
      | none => (none, caches)
  | none =>
    match build with
    | some b =>
      let cache : ProjectCache :=
        { projectStructure := b.projectStructure, commonPatterns := b.commonPatterns,
          dependencies := b.dependencies, timestamp := now }
      (some cache, cacheSet caches workspacePath cache)
    | none => (none, caches)

/- ============================================================
   autonomousActions.ts — data model and permission policy
   ============================================================ -/

/-- `ActionType` from autonomousActions.ts. -/
inductive ActionType
  | install_package
  | create_file
  | create_folder
  | modify_file
  | run_script
  | git_operation
  | format_code
  | update_imports
  deriving DecidableEq

/-- The string value of an `ActionType` (the TypeScript type is a string
union, so messages interpolate these literals). -/
def actionTypeStr : ActionType → String
  | .install_package => "install_package"
  | .create_file => "create_file"
  | .create_folder => "create_folder"
  | .modify_file => "modify_file"
  | .run_script => "run_script"
  | .git_operation => "git_operation"
  | .format_code => "format_code"
  | .update_imports => "update_imports"

/-- The `params` payload of an `ActionRequest` (`any` in TypeScript; the
repository only ever builds the shapes below, one per action kind). -/
inductive ActionParams
  | installPackage (packages : List String) (dev : Bool)
  | createFile (filePath : String) (content : String)
  | createFolder (folderPath : String)
  | modifyFile (filePath : String) (content : String)
  | runScript (script : String) (args : String)
  | gitOperation (operation : String) (files : List String) (message : String)
  | formatCode (filePath : String)
  | updateImports (filePath : String) (imports : List (String × String))
  deriving DecidableEq

/-- `ActionRequest` from autonomousActions.ts. -/
structure ActionRequest where
  type : ActionType
  description : String
  params : ActionParams
  workspacePath : String
  deriving DecidableEq

/-- `ActionResult` from autonomousActions.ts. -/
structure ActionResult where
  success : Bool
  message : String
  output : Option String := none
  error : Option String := none
  changes : Option (List String) := none
  deriving DecidableEq

/-- `ActionConfig` from autonomousActions.ts. -/
structure ActionConfig where
  allowPackageInstall : Bool
  allowFileCreation : Bool
  allowFolderCreation : Bool
  allowFileModification : Bool
  allowScriptExecution : Bool
  allowGitOperations : Bool
  allowFormatting : Bool
  requireConfirmation : Bool
  deriving DecidableEq

/-- `getActionConfig` from autonomousActions.ts: each capability is read
from the VS Code settings store (an external key-value capability,
modelled by the oracle `settings`) with the defaults of the source. -/
def getActionConfig (settings : String → Option Bool) : ActionConfig :=
  { allowPackageInstall := (settings "allowPackageInstall").getD true
    allowFileCreation := (settings "allowFileCreation").getD true
    allowFolderCreation := (settings "allowFolderCreation").getD true
    allowFileModification := (settings "allowFileModification").getD true
    allowScriptExecution := (settings "allowScriptExecution").getD false
    allowGitOperations := (settings "allowGitOperations").getD false
    allowFormatting := (settings "allowFormatting").getD true
    requireConfirmation := (settings "requireConfirmation").getD false }

/-- The permission policy with no user configuration set: every
`config.get` falls back to its declared default. -/
def defaultActionConfig : ActionConfig := getActionConfig (fun _ => none)

/-- `AutonomousActionExecutor.isActionAllowed`: the capability map keyed
by request kind (the source builds a record of the eight booleans and
indexes it; `update_imports` shares `allowFileModification`). -/
def isActionAllowed (config : ActionConfig) (type : ActionType) : Bool :=
  match type with
  | .install_package => config.allowPackageInstall
  | .create_file => config.allowFileCreation
  | .create_folder => config.allowFolderCreation
  | .modify_file => config.allowFileModification
  | .run_script => config.allowScriptExecution
  | .git_operation => config.allowGitOperations
  | .format_code => config.allowFormatting
  | .update_imports => config.allowFileModification

/- ============================================================
   autonomousActions.ts — executor
   ============================================================ -/

/-- The eight effectful action implementations of
`AutonomousActionExecutor` (`installPackage` … `updateImports`, lines
182-459).  Each spawns processes or touches the file system and catches
its own failures, so each is modelled as an oracle from the request
parameters to the `ActionResult` it returns. -/
structure ActionEffects where
  installPackage : ActionParams → ActionResult
  createFile : ActionParams → ActionResult
  createFolder : ActionParams → ActionResult
  modifyFile : ActionParams → ActionResult
  runScript : ActionParams → ActionResult
  gitOperation : ActionParams → ActionResult
  formatCode : ActionParams → ActionResult
  updateImports : ActionParams → ActionResult

/-- `AutonomousActionExecutor.execute`: deny a disallowed kind, then ask
for confirmation when `requireConfirmation` is set (the interactive dialog
is the oracle `confirm`), then dispatch to the kind implementation. -/
def executeAction (config : ActionConfig) (confirm : ActionRequest → Bool)
    (fx : ActionEffects) (action : ActionRequest) : ActionResult :=
  if !(isActionAllowed config action.type) then
    { success := false
      message := "Action " ++ actionTypeStr action.type ++ " is disabled in settings"
      error := some "Action not allowed" }
  else if config.requireConfirmation && !(confirm action) then
    { success := false, message := "Action cancelled by user" }
  else
    match action.type with
    | .install_package => fx.installPackage action.params
    | .create_file => fx.createFile action.params
    | .create_folder => fx.createFolder action.params
    | .modify_file => fx.modifyFile action.params
    | .run_script => fx.runScript action.params
    | .git_operation => fx.gitOperation action.params
    | .format_code => fx.formatCode action.params
    | .update_imports => fx.updateImports action.params

/-- The action batch loop of `executeSmartAgent` (smartAgent.ts lines
663-673): set each request's workspace path, execute it, and push it onto
`executedActions` only when the result reports success; a denied or failed
result is merely logged and the loop continues with the next request.
Returns `executedActions` together with the ordered list of the
per-request `result` values (the run's outcome sequence). -/
def runSuggestedActions (config : ActionConfig) (confirm : ActionRequest → Bool)
    (fx : ActionEffects) (workspacePath : String) (suggested : List ActionRequest) :
    List ActionRequest × List ActionResult :=
  suggested.foldl
    (fun acc a0 =>
      let action := { a0 with workspacePath := workspacePath }
      let result := executeAction config confirm fx action
      (if result.success then acc.1 ++ [action] else acc.1, acc.2 ++ [result]))
    ([], [])

/- ============================================================
   autonomousActions.ts — ActionParser
   ============================================================ -/

/-- Match a literal string at the head of the input, returning the rest. -/
def dropLit : List Char → List Char → Option (List Char)
  | [], cs => some cs
  | _ :: _, [] => none
  | a :: as, c :: cs => if a == c then dropLit as cs else none

/-- Match `\s+` (one or more whitespace characters), returning the rest. -/
def dropSpaces1 (cs : List Char) : Option (List Char) :=
  match cs with
  | c :: rest => if isJsSpace c then some (rest.dropWhile isJsSpace) else none
  | [] => none

/-- Match `"([^"]+)"` minus the opening quote, i.e. one-or-more non-quote
characters followed by the closing quote; returns the capture and rest. -/
def quotedVal1 (cs : List Char) : Option (List Char × List Char) :=
  let capture := cs.takeWhile (fun c => c != '"')
  if capture.isEmpty then none
  else
    match dropLit "\"".data (cs.drop capture.length) with
    | some rest => some (capture, rest)
    | none => none

/-- Match `"([^"]*)"` minus the opening quote (zero-or-more version, for
the `args` attribute); returns the capture and rest. -/
def quotedVal0 (cs : List Char) : Option (List Char × List Char) :=
  let capture := cs.takeWhile (fun c => c != '"')
  match dropLit "\"".data (cs.drop capture.length) with
  | some rest => some (capture, rest)
  | none => none

/-- The optional `(?:\s+dev="(true|false)")?` group of the
`install_package` regex.  Returns the captured boolean (compared against
`"true"` as in `match[2] === "true"`; an absent group yields `false`) and
the rest of the input.  The group is deterministic: each quantifier's
extent is forced by the following literal, so no regex backtracking can
produce a different parse. -/
def matchDevOpt (cs : List Char) : Bool × List Char :=
  match dropSpaces1 cs with
  | none => (false, cs)
  | some cs1 =>
    match dropLit "dev=\"".data cs1 with
    | none => (false, cs)
    | some cs2 =>
      match dropLit "true\"".data cs2 with
      | some rest => (true, rest)
      | none =>
        match dropLit "false\"".data cs2 with
        | some rest => (false, rest)
        | none => (false, cs)

/-- The optional `(?:\s+args="([^"]*)")?` group of the `run_script` regex:
returns the capture (`match[2] || ""` yields `""` when absent) and rest. -/
def matchArgsOpt (cs : List Char) : String × List Char :=
  match dropSpaces1 cs with
  | none => ("", cs)
  | some cs1 =>
    match dropLit "args=\"".data cs1 with
    | none => ("", cs)
    | some cs2 =>
      match quotedVal0 cs2 with
      | some (capture, rest) => (String.mk capture, rest)
      | none => ("", cs)

/-- Match `\s*\/>` (optional whitespace then the self-closing bracket). -/
def dropSelfClose (cs : List Char) : Option (List Char) :=
  dropLit "/>".data (cs.dropWhile isJsSpace)

/-- The `install_package` pattern of `ActionParser.parseActions`:
`<action:install_package\s+packages="([^"]+)"(?:\s+dev="(true|false)")?\s*\/>`
together with its handler (split the packages attribute on commas, trim
each name, compare the dev capture with `"true"`).  The regex is
deterministic (every quantifier's extent is forced by the literal that
follows it), so it is embedded as a scanner. -/
def matchInstallPackage (cs : List Char) : Option (ActionRequest × List Char) := do
  let cs ← dropLit "<action:install_package".data cs
  let cs ← dropSpaces1 cs
  let cs ← dropLit "packages=\"".data cs
  let (pkgsRaw, cs) ← quotedVal1 cs
  let (dev, cs) := matchDevOpt cs
  let rest ← dropSelfClose cs
  some ({ type := .install_package
          description := "Install packages: " ++ String.mk pkgsRaw
          params := .installPackage
            ((splitOnChar ',' pkgsRaw).map (fun p => String.mk (jsTrim p))) dev
          workspacePath := "" }, rest)

/-- The `create_file` pattern of `ActionParser.parseActions`:
`<action:create_file\s+path="([^"]+)"\s*\/>` with its handler (the content
is left empty, to be filled from a later code block). -/
def matchCreateFile (cs : List Char) : Option (ActionRequest × List Char) := do
  let cs ← dropLit "<action:create_file".data cs
  let cs ← dropSpaces1 cs
  let cs ← dropLit "path=\"".data cs
  let (p, cs) ← quotedVal1 cs
  let rest ← dropSelfClose cs
  some ({ type := .create_file
          description := "Create file: " ++ String.mk p
          params := .createFile (String.mk p) ""
          workspacePath := "" }, rest)

/-- The `create_folder` pattern of `ActionParser.parseActions`:
`<action:create_folder\s+path="([^"]+)"\s*\/>` with its handler. -/
def matchCreateFolder (cs : List Char) : Option (ActionRequest × List Char) := do
  let cs ← dropLit "<action:create_folder".data cs
  let cs ← dropSpaces1 cs
  let cs ← dropLit "path=\"".data cs
  let (p, cs) ← quotedVal1 cs
  let rest ← dropSelfClose cs
  some ({ type := .create_folder
          description := "Create folder: " ++ String.mk p
          params := .createFolder (String.mk p)
          workspacePath := "" }, rest)

/-- The `run_script` pattern of `ActionParser.parseActions`:
`<action:run_script\s+script="([^"]+)"(?:\s+args="([^"]*)")?\s*\/>` with
its handler. -/
def matchRunScript (cs : List Char) : Option (ActionRequest × List Char) := do
  let cs ← dropLit "<action:run_script".data cs
  let cs ← dropSpaces1 cs
  let cs ← dropLit "script=\"".data cs
  let (s, cs) ← quotedVal1 cs
  let (args, cs) := matchArgsOpt cs
  let rest ← dropSelfClose cs
  some ({ type := .run_script
          description := "Run script: " ++ String.mk s
          params := .runScript (String.mk s) args
          workspacePath := "" }, rest)

/-- `regex.exec` in a `while` loop: collect every match of one pattern
from left to right, resuming after the end of each match (as `lastIndex`
does).  The fuel argument, initialised with the text length, only bounds
the recursion; every marker pattern consumes at least one character, so it
is never exhausted before the scan completes. -/
def scanAllAux (m : List Char → Option (ActionRequest × List Char)) :
    Nat → List Char → List ActionRequest
  | 0, _ => []
  | _ + 1, [] => []
  | fuel + 1, c :: cs =>
    match m (c :: cs) with
    | some (a, rest) => a :: scanAllAux m fuel rest
    | none => scanAllAux m fuel cs

/-- All matches of one pattern in a text, in text order. -/
def scanAll (m : List Char → Option (ActionRequest × List Char))
    (text : List Char) : List ActionRequest :=
  scanAllAux m text.length text

/-- The `actionPatterns` array of `ActionParser.parseActions`, in source
order: install_package, create_file, create_folder, run_script. -/
def actionPatterns : List (List Char → Option (ActionRequest × List Char)) :=
  [matchInstallPackage, matchCreateFile, matchCreateFolder, matchRunScript]

/-- `ActionParser.parseActions` from autonomousActions.ts: for each
pattern in `actionPatterns` order, push every match of that pattern (in
text order) onto the result list. -/
def parseActions (aiResponse : String) : List ActionRequest :=
  actionPatterns.foldl (fun actions m => actions ++ scanAll m aiResponse.data) []

/- ============================================================
   smartAgent.ts — cleanCodeResponse
   ============================================================ -/

/-- Case-insensitive literal match (the explanation patterns carry the `i`
flag), returning the rest. -/
def dropLitI : List Char → List Char → Option (List Char)
  | [], cs => some cs
  | _ :: _, [] => none
  | a :: as, c :: cs => if asciiLower a == asciiLower c then dropLitI as cs else none

/-- An optional single character (`'?`, `s?`), case-insensitively. -/
def optCharI (c : Char) (cs : List Char) : List Char :=
  match cs with
  | d :: t => if asciiLower d == asciiLower c then t else cs
  | [] => cs

/-- The optional group `(?:the\s+)?`: both the literal and the following
whitespace must match, otherwise the group is skipped (no other
backtracking is possible because no tier keyword starts with `t`). -/
def optTheSpace (cs : List Char) : List Char :=
  match dropLitI "the".data cs with
  | none => cs
  | some cs1 =>
    match dropSpaces1 cs1 with
    | some cs2 => cs2
    | none => cs

/-- An ordered alternation of case-insensitive literals, as in
`(?:fixed|improved|refactored|updated)`; the alternatives start with
distinct letters, so first-match commitment equals regex semantics. -/
def altLitI (alts : List String) (cs : List Char) : Option (List Char) :=
  match alts with
  | [] => none
  | a :: rest =>
    match dropLitI a.data cs with
    | some r => some r
    | none => altLitI rest cs

/-- `[\s:]+` (greedy), requiring at least one character. -/
def dropSpaceColon1 (cs : List Char) : Option (List Char) :=
  match cs with
  | c :: rest =>
    if isJsSpace c || c == ':' then some (rest.dropWhile (fun d => isJsSpace d || d == ':'))
    else none
  | [] => none

/-- The first explanation pattern of `cleanCodeResponse`:
`^Here'?s?\s+(?:the\s+)?(?:fixed|improved|refactored|updated)\s+code[\s:]+`
(flags `im`).  Returns the input minus the matched span when it matches at
this position. -/
def matchExplain1 (cs : List Char) : Option (List Char) := do
  let cs ← dropLitI "here".data cs
  let cs := optCharI aposChar cs
  let cs := optCharI 's' cs
  let cs ← dropSpaces1 cs
  let cs := optTheSpace cs
  let cs ← altLitI ["fixed", "improved", "refactored", "updated"] cs
  let cs ← dropSpaces1 cs
  let cs ← dropLitI "code".data cs
  dropSpaceColon1 cs

/-- The second explanation pattern of `cleanCodeResponse`:
`^Here\s+is\s+(?:the\s+)?(?:fixed|improved)\s+code[\s:]+` (flags `im`). -/
def matchExplain2 (cs : List Char) : Option (List Char) := do
  let cs ← dropLitI "here".data cs
  let cs ← dropSpaces1 cs
  let cs ← dropLitI "is".data cs
  let cs ← dropSpaces1 cs
  let cs := optTheSpace cs
  let cs ← altLitI ["fixed", "improved"] cs
  let cs ← dropSpaces1 cs
  let cs ← dropLitI "code".data cs
  dropSpaceColon1 cs

/-- The third explanation pattern of `cleanCodeResponse`:
`^(?:Fixed|Improved|Refactored)\s+code[\s:]+` (flags `im`). -/
def matchExplain3 (cs : List Char) : Option (List Char) := do
  let cs ← altLitI ["fixed", "improved", "refactored"] cs
  let cs ← dropSpaces1 cs
  let cs ← dropLitI "code".data cs
  dropSpaceColon1 cs

/-- `String.prototype.replace` with a `^`-anchored multiline pattern and an
empty replacement: delete the first (leftmost line start) match.  The
`atStart` flag tracks whether the current position follows a newline. -/
def replaceFirstAux (m : List Char → Option (List Char)) :
    List Char → Bool → List Char
  | [], _ => []
  | c :: rest, atStart =>
    if atStart then
      match m (c :: rest) with
      | some restAfter => restAfter
      | none => c :: replaceFirstAux m rest (c == '\n')
    else c :: replaceFirstAux m rest (c == '\n')

/-- Delete the first match of a `^`-anchored `/im` pattern. -/
def replaceFirstLineStart (m : List Char → Option (List Char))
    (cs : List Char) : List Char :=
  replaceFirstAux m cs true

/-- The anchored whole-string pattern `^```[\w]*\n([\s\S]*?)\n```$` of
`cleanCodeResponse`: the text must open with a fence line and close with a
final fence; the capture is everything in between (unique because both
ends are anchored). -/
def codeBlockExtract (cs : List Char) : Option (List Char) :=
  match dropLit "```".data cs with
  | none => none
  | some r =>
    match r.dropWhile isWordChar with
    | '\n' :: body =>
      if body.length ≥ 4 && decide (body.drop (body.length - 4) = "\n```".data) then
        some (body.take (body.length - 4))
      else none
    | _ => none

/-- `cleaned.replace(/^```[\w]*\s*\n?/, "")`: strip a leading fence marker
together with the whitespace run after it (`\s*` is greedy, so the
optional `\n` adds nothing). -/
def stripHeadFence (cs : List Char) : List Char :=
  match dropLit "```".data cs with
  | none => cs
  | some r => (r.dropWhile isWordChar).dropWhile isJsSpace

/-- Does `(\n)?```\s*$` match from this position through the end? -/
def fenceSpacesEnd (cs : List Char) : Bool :=
  match dropLit "```".data cs with
  | some r => r.all isJsSpace
  | none => false

/-- One position of the `/\n?```\s*$/` search (the optional newline can
only be taken when present, since a backtick must follow). -/
def tailFenceMatches (cs : List Char) : Bool :=
  match cs with
  | '\n' :: rest => fenceSpacesEnd rest
  | _ => fenceSpacesEnd cs

/-- `cleaned.replace(/\n?```\s*$/, "")`: delete the leftmost suffix that
is an optional newline, a closing fence and trailing whitespace. -/
def stripTailFence : List Char → List Char
  | [] => []
  | c :: rest => if tailFenceMatches (c :: rest) then [] else c :: stripTailFence rest

/-- `cleanCodeResponse` from smartAgent.ts: trim, unwrap a full markdown
code block (only when the capture is non-empty), delete the first match of
each explanation pattern, strip stray opening/closing fences, and trim
again.  Note that no step removes `<action:... />` markers. -/
def cleanCodeResponse (response : String) : String :=
  let cleaned := jsTrim response.data
  let cleaned :=
    match codeBlockExtract cleaned with
    | some capture => if capture.isEmpty then cleaned else capture
    | none => cleaned
  let cleaned := replaceFirstLineStart matchExplain1 cleaned
  let cleaned := replaceFirstLineStart matchExplain2 cleaned
  let cleaned := replaceFirstLineStart matchExplain3 cleaned
  let cleaned := stripHeadFence cleaned
  let cleaned := stripTailFence cleaned
  String.mk (jsTrim cleaned)

/- ============================================================
   smartAgent.ts — executeSmartAgent (the retry/validate loop)
   ============================================================ -/

/-- One `callAI` round trip: `err` models a thrown transport/API error,
`ok content` models a completed call whose message content may be `null`. -/
inductive AiResult
  | err
  | ok (content : Option String)

/-- The configuration slice of `SmartAgentConfig` that steers the loop.
`enableValidation`/`maxRetries` are `Option`s because the TypeScript
fields are optional (`undefined` when unset).  The prompt-only fields
(`userPrompt`, `selectedCode`, `fullFileContent`, `apiKey`, `model`) shape
the message text sent to the model oracle and nothing else observable, so
they are not carried here. -/
structure AgentConfig where
  currentFile : String
  workspacePath : Option String
  enableValidation : Option Bool
  maxRetries : Option Nat
  deriving DecidableEq

/-- The external capabilities `executeSmartAgent` interacts with:
the model endpoint, the TypeScript parser used by `validateCode`, the
VS Code settings store read by `createActionExecutor`, the confirmation
dialog, and the action side-effect implementations.  `ai` is indexed by
the number of calls already made in this run. -/
structure AgentOracles where
  ai : Nat → AiResult
  tsParse : String → Option (List CodeError)
  settings : String → Option Bool
  confirm : ActionRequest → Bool
  fx : ActionEffects

/-- `SmartAgentResult`, restricted to the fields the loop itself computes,
plus two specification-only observables: `lastVerdict` is the final value
of the loop variable `lastValidationResult`, and `invocations` counts the
`callAI` round trips the run performed.  Reporting-only fields
(`mode`, `cachedUsed`, web-search statistics, `executionTime`,
`actionsSummary`, `changesMade`) are omitted. -/
structure AgentRunResult where
  success : Bool
  code : Option String
  error : Option String
  validated : Option Bool
  validationScore : Option Int
  retries : Nat
  validationErrors : Option (List String)
  actionsExecuted : Option (List ActionRequest)
  lastVerdict : Option ValidationResult
  invocations : Nat
  deriving DecidableEq

/-- JavaScript `x || d` on an optional number: `undefined` and the falsy
`0` both fall back to the default. -/
def jsOrDefault (x : Option Nat) (d : Nat) : Nat :=
  match x with
  | none => d
  | some v => if v = 0 then d else v

/-- The `while (retryCount <= maxRetries)` loop of `executeSmartAgent`
(smartAgent.ts lines 617-771).  Arguments after the oracles: remaining
fuel (`maxRetries + 1` at entry, strictly more than the loop can itself
iterate, so fuel 0 is the source's unreachable fall-through after the
`while`), `retryCount`, the number of `callAI` calls already made, and the
loop variable `lastValidationResult`.

Per iteration: call the model (a thrown error or falsy content goes to
the inner `catch`: bump the counter and continue if retries remain, else
rethrow to the outer `catch`); clean the response; when a workspace is
open, parse and execute the suggested actions; then either validate the
cleaned code (accept, retry, or exhaust) or return immediately when
validation is disabled. -/
def runLoop (cfg : AgentConfig) (os : AgentOracles) (maxRetries : Nat)
    (enableValidation : Bool) :
    Nat → Nat → Nat → Option ValidationResult → AgentRunResult
  | 0, retryCount, attempt, lastVR =>
    { success := false, code := none
      error := some "Failed to process: Error: Unexpected error in retry loop"
      validated := none, validationScore := none, retries := retryCount
      validationErrors := none, actionsExecuted := none
      lastVerdict := lastVR, invocations := attempt }
  | fuel + 1, retryCount, attempt, lastVR =>
    let fail : AgentRunResult :=
      { success := false, code := none, error := some "Failed to process: Error"
        validated := none, validationScore := none, retries := retryCount
        validationErrors := none, actionsExecuted := none
        lastVerdict := lastVR, invocations := attempt + 1 }
    match os.ai attempt with
    | .err =>
      if retryCount < maxRetries then
        runLoop cfg os maxRetries enableValidation fuel (retryCount + 1) (attempt + 1) lastVR
      else fail
    | .ok content =>
      if content = none || content = some "" then
        if retryCount < maxRetries then
          runLoop cfg os maxRetries enableValidation fuel (retryCount + 1) (attempt + 1) lastVR
        else fail
      else
        let code := content.getD ""
        let cleanedCode := cleanCodeResponse code
        let executedActions :=
          match cfg.workspacePath with
          | some ws =>
            (runSuggestedActions (getActionConfig os.settings) os.confirm os.fx ws
              (parseActions code)).1
          | none => []
        if enableValidation then
          let validationResult :=
            validateCode (os.tsParse cleanedCode) cleanedCode (basenameS cfg.currentFile)
          if validationResult.isValid then
            { success := true, code := some cleanedCode, error := none
              validated := some true, validationScore := some validationResult.score
              retries := retryCount, validationErrors := none
              actionsExecuted := some executedActions
              lastVerdict := some validationResult, invocations := attempt + 1 }
          else if retryCount < maxRetries then
            runLoop cfg os maxRetries enableValidation fuel (retryCount + 1) (attempt + 1)
              (some validationResult)
          else
            { success := false, code := some cleanedCode
              error := some ("Code validation failed after " ++ Nat.repr maxRetries ++
                " retries: " ++ getErrorSummary validationResult)
              validated := some false, validationScore := some validationResult.score
              retries := retryCount
              validationErrors := some (validationResult.errors.map (fun e => e.message))
              actionsExecuted := some executedActions
              lastVerdict := some validationResult, invocations := attempt + 1 }
        else
          { success := true, code := some cleanedCode, error := none
            validated := some false, validationScore := none
            retries := 0, validationErrors := none
            actionsExecuted := some executedActions
            lastVerdict := lastVR, invocations := attempt + 1 }

/-- `executeSmartAgent` from smartAgent.ts, as seen through the loop:
`enableValidation` defaults to true (`!== false`), `maxRetries` defaults
with JavaScript `||` (so a configured 0 becomes 2), and the loop starts at
`retryCount = 0` with no prior verdict.  The complexity analysis, cache
fetch and web search that precede the loop only shape prompt text and
reporting fields and are modelled by their respective definitions
(`analyzeTaskComplexity`, `getProjectCache`). -/
def executeSmartAgent (cfg : AgentConfig) (os : AgentOracles) : AgentRunResult :=
  let enableValidation := !(cfg.enableValidation == some false)
  let maxRetries := jsOrDefault cfg.maxRetries 2
  runLoop cfg os maxRetries enableValidation (maxRetries + 1) 0 0 none

/- ============================================================
   Concrete fixtures used by the theorems below
   ============================================================ -/

/-- A successful side-effect result (stands for a side effect that ran
without error). -/
def stubOkResult : ActionResult := { success := true, message := "ok" }

/-- Effect oracle in which every side effect succeeds. -/
def stubFx : ActionEffects :=
  { installPackage := fun _ => stubOkResult, createFile := fun _ => stubOkResult
    createFolder := fun _ => stubOkResult, modifyFile := fun _ => stubOkResult
    runScript := fun _ => stubOkResult, gitOperation := fun _ => stubOkResult
    formatCode := fun _ => stubOkResult, updateImports := fun _ => stubOkResult }

/-- Confirmation oracle that always approves. -/
def alwaysConfirm : ActionRequest → Bool := fun _ => true

/-- A parsed `run_script` request. -/
def demoScriptReq : ActionRequest :=
  { type := .run_script, description := "Run script: build"
    params := .runScript "build" "", workspacePath := "" }

/-- A parsed `git_operation` request. -/
def demoGitReq : ActionRequest :=
  { type := .git_operation, description := "Git add"
    params := .gitOperation "add" ["."] "Auto-commit by AI", workspacePath := "" }

/-- A parsed `create_folder` request. -/
def demoFolderReq : ActionRequest :=
  { type := .create_folder, description := "Create folder: src"
    params := .createFolder "src", workspacePath := "" }

/-- The denial result `executeAction` produces for a `run_script` request. -/
def deniedScriptResult : ActionResult :=
  { success := false, message := "Action run_script is disabled in settings"
    error := some "Action not allowed" }

/-- Model oracle that always completes with code whose parenthesis is
unbalanced (so basic validation always fails). -/
def osAlwaysInvalid : AgentOracles :=
  { ai := fun _ => .ok (some "("), tsParse := fun _ => none
    settings := fun _ => none, confirm := alwaysConfirm, fx := stubFx }

/-- Model oracle that always completes with balanced, clean code. -/
def osAlwaysValid : AgentOracles :=
  { ai := fun _ => .ok (some "let x = 1"), tsParse := fun _ => none
    settings := fun _ => none, confirm := alwaysConfirm, fx := stubFx }

/-- A run configured with `maxRetries = 0` (the documented way to request
no retries) against a plain-text file, with no workspace open. -/
def cfgMaxRetriesZero : AgentConfig :=
  { currentFile := "script.txt", workspacePath := none
    enableValidation := none, maxRetries := some 0 }

/- ============================================================
   Helper lemmas
   ============================================================ -/

theorem beq_zero_isEmpty (l : List CodeError) : (l.length == 0) = l.isEmpty := by
  cases l <;> rfl

theorem calculateScore_formula (es : List CodeError) (ws : List CodeWarning) :
    calculateScore es ws
      = max 0 (min 100 (100 - 10 * (es.length : Int) - 2 * (ws.length : Int))) := by
  unfold calculateScore
  ring_nf

/-- C7: every verdict `validateCode` produces — through the TypeScript
path (for any parser diagnostics, including the fallback), the Python path
and the basic path — carries `qualityScore = clamp(100 - 10·errors -
2·warnings, 0, 100)`, and is acceptable exactly when its error list is
empty, so warnings alone never make a verdict unacceptable. -/
theorem validateCode_score_formula_and_acceptance
    (tsParse : Option (List CodeError)) (code fileName : String) :
    (validateCode tsParse code fileName).isValid
        = (validateCode tsParse code fileName).errors.isEmpty
    ∧ (validateCode tsParse code fileName).score
        = max 0 (min 100
            (100 - 10 * ((validateCode tsParse code fileName).errors.length : Int)
                 - 2 * ((validateCode tsParse code fileName).warnings.length : Int))) := by
  have shape : ∀ v : ValidationResult,
      v.isValid = (v.errors.length == 0) →
      v.score = calculateScore v.errors v.warnings →
      v.isValid = v.errors.isEmpty
        ∧ v.score = max 0 (min 100
            (100 - 10 * (v.errors.length : Int) - 2 * (v.warnings.length : Int))) := by
    intro v h1 h2
    exact ⟨h1.trans (beq_zero_isEmpty _), h2.trans (calculateScore_formula _ _)⟩
  simp only [validateCode]
  split
  · unfold validateTypeScript
    split
    · unfold performBasicValidation
      exact shape _ rfl rfl
    · exact shape _ rfl rfl
  · split
    · unfold validatePython
      exact shape _ rfl rfl
    · unfold performBasicValidation
      exact shape _ rfl rfl

/-- C7 witness: the theorem applied at a concrete verdict (a Python
snippet with one error and one warning: score 88, unacceptable). -/
theorem validateCode_score_formula_and_acceptance_witness :
    (validateCode none "if x = (1\nok()" "m.py").isValid
        = (validateCode none "if x = (1\nok()" "m.py").errors.isEmpty
    ∧ (validateCode none "if x = (1\nok()" "m.py").score
        = max 0 (min 100
            (100 - 10 * ((validateCode none "if x = (1\nok()" "m.py").errors.length : Int)
                 - 2 * ((validateCode none "if x = (1\nok()" "m.py").warnings.length : Int))) :=
  validateCode_score_formula_and_acceptance none "if x = (1\nok()" "m.py"

/-- C6: the trivial check of `analyzeTaskComplexity` is evaluated first,
so whenever the lower-cased instruction contains a trivial-tier keyword or
the selected code has fewer than 10 lines, the tier is `simple` (trivial)
with `needsContext = false` — for every instruction, regardless of its
length and even when a substantial-tier keyword is also present. -/
theorem classify_trivial_first (userPrompt selectedCode : String)
    (h : simpleKeywords.any (fun k => jsIncludes (lowerL userPrompt.data) k.data) = true
         ∨ (splitOnChar '\n' selectedCode.data).length < 10) :
    (analyzeTaskComplexity userPrompt selectedCode).complexity = .simple
    ∧ (analyzeTaskComplexity userPrompt selectedCode).needsContext = false := by
  have hcond :
      (simpleKeywords.any (fun k => jsIncludes (lowerL userPrompt.data) k.data)
        || decide ((splitOnChar '\n' selectedCode.data).length < 10)) = true := by
    rcases h with h | h
    · simp [h]
    · simp [h]
  unfold analyzeTaskComplexity
  rw [if_pos (by simpa using hcond)]
  exact ⟨rfl, rfl⟩

/-- C6 witness: an instruction that is 108 characters long, contains the
substantial keyword "implement" and the trivial keyword "fix typo",
over a 12-line selection — still classified trivial via the keyword. -/
theorem classify_trivial_first_witness :
    (simpleKeywords.any (fun k =>
        jsIncludes (lowerL ("Implement a complete restructure of the module architecture but first fix typo issues in the main entry file").data) k.data) = true
      ∨ (splitOnChar '\n' ("a\nb\nc\nd\ne\nf\ng\nh\ni\nj\nk\nl").data).length < 10)
    ∧ ((analyzeTaskComplexity
          "Implement a complete restructure of the module architecture but first fix typo issues in the main entry file"
          "a\nb\nc\nd\ne\nf\ng\nh\ni\nj\nk\nl").complexity = .simple
       ∧ (analyzeTaskComplexity
            "Implement a complete restructure of the module architecture but first fix typo issues in the main entry file"
            "a\nb\nc\nd\ne\nf\ng\nh\ni\nj\nk\nl").needsContext = false) :=
  ⟨Or.inl (by decide),
   classify_trivial_first
     "Implement a complete restructure of the module architecture but first fix typo issues in the main entry file"
     "a\nb\nc\nd\ne\nf\ng\nh\ni\nj\nk\nl"
     (Or.inl (by decide))⟩

/-- C9: with no user configuration set, `getActionConfig` turns script
execution and git operations off and package install, file creation,
folder creation, file modification and formatting on; consequently a
`run_script` or `git_operation` request is denied by `executeAction`
under the default policy. -/
theorem default_policy_capabilities :
    defaultActionConfig.allowScriptExecution = false
    ∧ defaultActionConfig.allowGitOperations = false
    ∧ defaultActionConfig.allowPackageInstall = true
    ∧ defaultActionConfig.allowFileCreation = true
    ∧ defaultActionConfig.allowFolderCreation = true
    ∧ defaultActionConfig.allowFileModification = true
    ∧ defaultActionConfig.allowFormatting = true
    ∧ executeAction defaultActionConfig alwaysConfirm stubFx demoScriptReq
        = deniedScriptResult
    ∧ (executeAction defaultActionConfig alwaysConfirm stubFx demoGitReq).success = false
    ∧ (executeAction defaultActionConfig alwaysConfirm stubFx demoGitReq).error
        = some "Action not allowed" := by
  decide

/-- C2 (failing run): the source reads the retry budget with
`config.maxRetries || 2`, and `0` is falsy in JavaScript, so a run
configured with `maxRetries = 0` (documented range 0-5) uses budget 2;
when every attempt fails validation the returned `retries` field is 2,
exceeding the configured value 0. -/
theorem configured_zero_retries_exceeded :
    cfgMaxRetriesZero.maxRetries = some 0
    ∧ (executeSmartAgent cfgMaxRetriesZero osAlwaysInvalid).retries = 2 := by
  constructor
  · rfl
  · rfl

/-- C3 (failing run): with configured `maxRetries = 0` the claim requires
exactly one model invocation, but the `|| 2` default gives the loop a
budget of 2 retries, so a run whose attempts all fail validation performs
three model invocations. -/
theorem configured_zero_three_invocations :
    cfgMaxRetriesZero.maxRetries = some 0
    ∧ (executeSmartAgent cfgMaxRetriesZero osAlwaysInvalid).invocations = 3 := by
  constructor
  · rfl
  · rfl

/-- The Scenario D model output: an install marker followed by code. -/
def scenarioDText : String :=
  "<action:install_package packages=\"left-pad\" dev=\"false\" />\nconst padded = leftPad(value, 5);"

/-- The request Scenario D's marker parses to. -/
def scenarioDReq : ActionRequest :=
  { type := .install_package, description := "Install packages: left-pad"
    params := .installPackage ["left-pad"] false, workspacePath := "" }

/-- The Scenario D permission policy: defaults with `allowPackageInstall`
turned off. -/
def scenarioDConfig : ActionConfig :=
  { defaultActionConfig with allowPackageInstall := false }

/-- C4 (divergence run): on the Scenario D output the parser does extract
the install request and the executor does deny it under
`allowPackageInstall = false`, but `cleanCodeResponse` — the only cleaning
applied to the returned code — leaves the text unchanged, so the final
code still contains the full marker text instead of having it stripped. -/
theorem scenarioD_marker_not_stripped :
    cleanCodeResponse scenarioDText = scenarioDText
    ∧ jsIncludesS (cleanCodeResponse scenarioDText) "<action:install_package" = true
    ∧ parseActions scenarioDText = [scenarioDReq]
    ∧ (executeAction scenarioDConfig alwaysConfirm stubFx
        { scenarioDReq with workspacePath := "/w" }).success = false
    ∧ (executeAction scenarioDConfig alwaysConfirm stubFx
        { scenarioDReq with workspacePath := "/w" }).error = some "Action not allowed" := by
  refine ⟨rfl, ?_, rfl, rfl, rfl⟩
  decide

/-- A model output in which a create_file marker precedes an
install_package marker in text order. -/
def reorderText : String :=
  "<action:create_file path=\"src/a.ts\" />\n<action:install_package packages=\"left-pad\" />"

/-- The install request parsed from `reorderText`. -/
def reorderInstallReq : ActionRequest :=
  { type := .install_package, description := "Install packages: left-pad"
    params := .installPackage ["left-pad"] false, workspacePath := "" }

/-- The create_file request parsed from `reorderText`. -/
def reorderCreateFileReq : ActionRequest :=
  { type := .create_file, description := "Create file: src/a.ts"
    params := .createFile "src/a.ts" "", workspacePath := "" }

/-- C10: `parseActions` returns the matches grouped by marker kind in the
fixed pattern order install_package, create_file, create_folder,
run_script (text position preserved only within one kind); concretely, a
create_file marker that appears before an install_package marker in the
output is still placed after it in the returned list. -/
theorem parseActions_fixed_kind_order :
    (∀ text : String,
      parseActions text
        = scanAll matchInstallPackage text.data ++ scanAll matchCreateFile text.data
          ++ scanAll matchCreateFolder text.data ++ scanAll matchRunScript text.data)
    ∧ parseActions reorderText = [reorderInstallReq, reorderCreateFileReq] := by
  constructor
  · intro text
    simp [parseActions, actionPatterns, List.append_assoc]
  · rfl

theorem runSuggestedActions_foldl (config : ActionConfig) (confirm : ActionRequest → Bool)
    (fx : ActionEffects) (ws : String) :
    ∀ (suggested : List ActionRequest) (acc : List ActionRequest × List ActionResult),
      suggested.foldl
        (fun acc a0 =>
          let action := { a0 with workspacePath := ws }
          let result := executeAction config confirm fx action
          (if result.success then acc.1 ++ [action] else acc.1, acc.2 ++ [result]))
        acc
      = (acc.1 ++ (suggested.map (fun a0 => { a0 with workspacePath := ws })).filter
            (fun a => (executeAction config confirm fx a).success),
         acc.2 ++ suggested.map
            (fun a0 => executeAction config confirm fx { a0 with workspacePath := ws })) := by
  intro suggested
  induction suggested with
  | nil => intro acc; simp
  | cons a t ih =>
    intro acc
    simp only [List.foldl_cons, List.map_cons, List.filter_cons]
    rw [ih]
    by_cases hs : (executeAction config confirm fx { a with workspacePath := ws }).success
    · simp [hs, List.append_assoc]
    · simp [hs, List.append_assoc]

/-- C5 (amended): a request whose kind is disabled produces a Denied
outcome (`success = false`, error "Action not allowed"), and neither a
denial nor a failed execution aborts the batch — the loop executes every
request in parse order, its outcome sequence being exactly the map of
`executeAction` over the batch; however the run's recorded
executed-actions list keeps only the requests whose outcome succeeded, so
a Denied outcome is not recorded in it. -/
theorem actionBatch_continues_and_records_successes (config : ActionConfig)
    (confirm : ActionRequest → Bool) (fx : ActionEffects) (ws : String)
    (suggested : List ActionRequest) :
    (runSuggestedActions config confirm fx ws suggested).2
        = suggested.map (fun a0 => executeAction config confirm fx { a0 with workspacePath := ws })
    ∧ (runSuggestedActions config confirm fx ws suggested).1
        = (suggested.map (fun a0 => { a0 with workspacePath := ws })).filter
            (fun a => (executeAction config confirm fx a).success)
    ∧ ∀ a : ActionRequest, isActionAllowed config a.type = false →
        (executeAction config confirm fx a).success = false
        ∧ (executeAction config confirm fx a).error = some "Action not allowed" := by
  refine ⟨?_, ?_, ?_⟩
  · unfold runSuggestedActions
    rw [runSuggestedActions_foldl]
    simp
  · unfold runSuggestedActions
    rw [runSuggestedActions_foldl]
    simp
  · intro a h
    unfold executeAction
    rw [if_pos (by simp [h])]
    exact ⟨rfl, rfl⟩

/-- C5 amended witness: under the default policy a batch of a `run_script`
request (denied) followed by a `create_folder` request (succeeds under
`stubFx`) yields the outcome trace of both requests in order, records only
the folder request, and the denied request's outcome has
`success = false`. -/
theorem actionBatch_continues_and_records_successes_witness :
    ((runSuggestedActions defaultActionConfig alwaysConfirm stubFx "/w"
        [demoScriptReq, demoFolderReq]).2
      = [executeAction defaultActionConfig alwaysConfirm stubFx
          { demoScriptReq with workspacePath := "/w" },
         executeAction defaultActionConfig alwaysConfirm stubFx
          { demoFolderReq with workspacePath := "/w" }])
    ∧ ((executeAction defaultActionConfig alwaysConfirm stubFx demoScriptReq).success = false
       ∧ (executeAction defaultActionConfig alwaysConfirm stubFx demoScriptReq).error
          = some "Action not allowed") :=
  ⟨(actionBatch_continues_and_records_successes defaultActionConfig alwaysConfirm stubFx "/w"
      [demoScriptReq, demoFolderReq]).1,
   (actionBatch_continues_and_records_successes defaultActionConfig alwaysConfirm stubFx "/w"
      [demoScriptReq, demoFolderReq]).2.2 demoScriptReq (by decide)⟩

/-- C5 counterexample: under the default policy the `run_script` request
is denied (its outcome has `success = false`), the batch still continues
to the next request, but the run's recorded list (`executedActions`, the
source of the returned `actionsExecuted` field) contains only the
successful folder request — the Denied outcome is recorded nowhere, so the
claim that it is "recorded in the run's ordered outcome list" is false. -/
theorem denied_outcome_not_recorded :
    (executeAction defaultActionConfig alwaysConfirm stubFx
        { demoScriptReq with workspacePath := "/w" }).success = false
    ∧ (runSuggestedActions defaultActionConfig alwaysConfirm stubFx "/w"
        [demoScriptReq, demoFolderReq]).1
      = [{ demoFolderReq with workspacePath := "/w" }]
    ∧ (runSuggestedActions defaultActionConfig alwaysConfirm stubFx "/w"
        [demoScriptReq, demoFolderReq]).2
      = [deniedScriptResult, stubOkResult] := by
  refine ⟨rfl, rfl, rfl⟩

/-- A stored snapshot captured at clock value 0. -/
def demoSnapshot : ProjectCache :=
  { projectStructure := "Project Structure:\n", commonPatterns := "No patterns detected"
    dependencies := "Key Dependencies:\n", timestamp := 0 }

/-- A cache map holding `demoSnapshot` for one project root. -/
def demoCaches : CacheState := [("/workspace/app", demoSnapshot)]

/-- C8: a stored snapshot is returned as a hit exactly while its age is
below `CACHE_DURATION`: any two `getProjectCache` calls within the window
return the bit-identical stored snapshot and leave the cache map
untouched (no rebuild), while a call at or past the window never returns
the stored snapshot as a hit (whatever it returns is freshly built and
carries the new timestamp). -/
theorem contextCache_ttl_hit_iff_fresh (caches : CacheState) (workspacePath : String)
    (e : ProjectCache) (hlook : List.lookup workspacePath caches = some e)
    (now₁ now₂ : Int) (build₁ build₂ : Option CacheBuild)
    (h₁ : now₁ - e.timestamp < CACHE_DURATION)
    (h₂ : now₂ - e.timestamp < CACHE_DURATION) :
    getProjectCache caches now₁ build₁ workspacePath = (some e, caches)
    ∧ getProjectCache (getProjectCache caches now₁ build₁ workspacePath).2
        now₂ build₂ workspacePath = (some e, caches)
    ∧ ∀ (now₃ : Int) (build₃ : Option CacheBuild),
        CACHE_DURATION ≤ now₃ - e.timestamp →
        (getProjectCache caches now₃ build₃ workspacePath).1 ≠ some e := by
  have hit : ∀ (n : Int) (b : Option CacheBuild), n - e.timestamp < CACHE_DURATION →
      getProjectCache caches n b workspacePath = (some e, caches) := by
    intro n b hn
    unfold getProjectCache
    rw [hlook]
    simp [hn]
  refine ⟨hit now₁ build₁ h₁, ?_, ?_⟩
  · rw [hit now₁ build₁ h₁]
    exact hit now₂ build₂ h₂
  · intro now₃ build₃ h₃
    unfold getProjectCache
    rw [hlook]
    dsimp only
    rw [if_neg (not_lt.mpr h₃)]
    cases build₃ with
    | none => simp
    | some b =>
      simp only [ne_eq, Option.some_inj]
      intro hc
      have hts : now₃ = e.timestamp := congrArg ProjectCache.timestamp hc
      have : (0 : Int) < CACHE_DURATION := by decide
      omega

/-- C8 witness: the theorem at a stored snapshot of age 0, read at clock
values 1000 and 200000 (both inside the 300000 ms window — identical hits,
no state change) and at clock value 300000 (window elapsed — the stored
snapshot is not returned). -/
theorem contextCache_ttl_hit_iff_fresh_witness :
    getProjectCache demoCaches 1000 none "/workspace/app" = (some demoSnapshot, demoCaches)
    ∧ getProjectCache (getProjectCache demoCaches 1000 none "/workspace/app").2
        200000 none "/workspace/app" = (some demoSnapshot, demoCaches)
    ∧ (getProjectCache demoCaches 300000 none "/workspace/app").1 ≠ some demoSnapshot :=
  ⟨(contextCache_ttl_hit_iff_fresh demoCaches "/workspace/app" demoSnapshot rfl
      1000 200000 none none (by decide) (by decide)).1,
   (contextCache_ttl_hit_iff_fresh demoCaches "/workspace/app" demoSnapshot rfl
      1000 200000 none none (by decide) (by decide)).2.1,
   (contextCache_ttl_hit_iff_fresh demoCaches "/workspace/app" demoSnapshot rfl
      1000 200000 none none (by decide) (by decide)).2.2 300000 none (by decide)⟩

theorem runLoop_success_aux (cfg : AgentConfig) (os : AgentOracles)
    (maxRetries : Nat) (enableValidation : Bool) :
    ∀ (fuel retryCount attempt : Nat) (lastVR : Option ValidationResult),
      (runLoop cfg os maxRetries enableValidation fuel retryCount attempt lastVR).success = true →
      enableValidation = false
      ∨ ∃ vr, (runLoop cfg os maxRetries enableValidation fuel retryCount attempt lastVR).lastVerdict
                = some vr ∧ vr.isValid = true := by
  intro fuel
  induction fuel with
  | zero =>
    intro rc att lv h
    simp [runLoop] at h
  | succ fuel ih =>
    intro rc att lv
    simp only [runLoop]
    split
    · split
      · exact ih _ _ _
      · intro h
        simp at h
    · split
      · split
        · exact ih _ _ _
        · intro h
          simp at h
      · split
        · split
          · intro _
            right
            exact ⟨_, rfl, by assumption⟩
          · split
            · exact ih _ _ _
            · intro h
              simp at h
        · intro _
          left
          simp_all

/-- C1: whenever a run of `executeSmartAgent` returns `success = true`,
either the last validation verdict produced in the run (the final value of
`lastValidationResult`) is acceptable, or validation was disabled for the
run (`enableValidation` configured `false`) — over every configuration,
model oracle, action policy and side-effect behaviour. -/
theorem smartAgent_success_requires_acceptable_verdict (cfg : AgentConfig)
    (os : AgentOracles) (h : (executeSmartAgent cfg os).success = true) :
    cfg.enableValidation = some false
    ∨ ∃ vr, (executeSmartAgent cfg os).lastVerdict = some vr ∧ vr.isValid = true := by
  unfold executeSmartAgent at h ⊢
  rcases runLoop_success_aux cfg os _ _ _ _ _ _ h with hev | hvr
  · left
    have hb : (cfg.enableValidation == some false) = true := by simpa using hev
    simpa using hb
  · right
    exact hvr

/-- The configuration of the C1 witness run: defaults everywhere, no
workspace. -/
def cfgDefaults : AgentConfig :=
  { currentFile := "a.txt", workspacePath := none
    enableValidation := none, maxRetries := none }

/-- C1 witness: a run whose model output is clean succeeds with validation
enabled, and the theorem yields an acceptable last verdict for it. -/
theorem smartAgent_success_requires_acceptable_verdict_witness :
    (executeSmartAgent cfgDefaults osAlwaysValid).success = true
    ∧ (cfgDefaults.enableValidation = some false
       ∨ ∃ vr, (executeSmartAgent cfgDefaults osAlwaysValid).lastVerdict = some vr
               ∧ vr.isValid = true) :=
  ⟨rfl, smartAgent_success_requires_acceptable_verdict cfgDefaults osAlwaysValid rfl⟩
